import Mathlib

/-!
Shallow embedding of the photo/user data model and access layer of
`src/app.py` (a Streamlit + SQLite photo-sharing app), together with
theorems checking the specification's claims against it.

Conventions of the embedding:
* the SQLite database file is a `DB` value: a list of user rows and a list
  of photo rows, plus the AUTOINCREMENT counters and a clock supplying
  `created_at` values (modelled as a strictly increasing insertion counter);
* SQL `TEXT` values are `String` (in this toolchain a wrapper around
  `List Char`); `TEXT` comparison is lexicographic character comparison,
  which agrees with SQLite's memcmp ordering on the ASCII data involved;
* the SHA-256 digest (`hashlib.sha256(...).hexdigest()`) is an opaque
  parameter `hash : String → String` of every operation that uses it;
* Python exceptions that the app does not catch are explicit error values
  of `Except`/outcome types;
* PIL (`Image.open`, `Image.thumbnail`, JPEG re-encode) is external to the
  repository: decoding is an opaque `decode` parameter, `thumbnail`'s
  size computation is transcribed from Pillow's algorithm with exact
  integer arithmetic (cross-multiplied comparisons) in place of floats,
  and the JPEG re-encode fails (`OSError`) on decoded pixel modes
  Pillow cannot write as JPEG, such as RGBA or palette PNGs.
-/

/-- Lowercase a character for SQLite's `LIKE`, which is ASCII-case-insensitive
by default, returning its code point: codes 65-90 (A-Z) map to 97-122. -/
def lowerN (c : Char) : Nat :=
  if 65 ≤ c.toNat ∧ c.toNat ≤ 90 then c.toNat + 32 else c.toNat

/-- Code points of a string, lowercased as SQLite's `LIKE` compares them. -/
def lowerStr (s : String) : List Nat :=
  s.data.map lowerN

/-- Lexicographic strict order on character lists; this is how SQLite orders
the `TEXT` values (ISO dates, timestamps) that `ORDER BY` touches here. -/
def dataLt : List Char → List Char → Bool
  | _, [] => false
  | [], _ :: _ => true
  | a :: as, b :: bs =>
    decide (a.toNat < b.toNat) || (a == b && dataLt as bs)

/-- Little-endian base-10 digits of a natural number. -/
def natLE (n : Nat) : List Nat :=
  if n < 10 then [n] else n % 10 :: natLE (n / 10)
termination_by n
decreasing_by omega

/-- Value of a little-endian digit list. -/
def valLE : List Nat → Nat
  | [] => 0
  | d :: t => d + 10 * valLE t

/-- The character for one decimal digit. -/
def digitChar : Nat → Char
  | 0 => '0' | 1 => '1' | 2 => '2' | 3 => '3' | 4 => '4'
  | 5 => '5' | 6 => '6' | 7 => '7' | 8 => '8' | _ => '9'

/-- Decimal representation of a natural number, as Python's `str` renders the
(nonnegative) SQLite ids that `save_photo` serializes. -/
def natToChars (n : Nat) : List Char :=
  (natLE n).reverse.map digitChar

/-- Numeric value of a decimal digit string; a helper for the model of
Python's `int` below, meaningful only on all-digit tokens. -/
def charsToNat (cs : List Char) : Nat :=
  cs.foldl (fun a c => a * 10 + (c.toNat - 48)) 0

/-- Is the character an ASCII decimal digit (codes 48-57)? -/
def isDigitChar (c : Char) : Bool :=
  decide (48 ≤ c.toNat) && decide (c.toNat ≤ 57)

/-- Embedding of Python's `int` on one people token (`int(pid)`, app.py
line 236): the numeric value when the token is a nonempty digit string,
and `none` for the `ValueError` raised on an empty or non-digit token.
Python's `int` additionally tolerates surrounding whitespace, a sign and
digit-group underscores; no such token can occur in a `people` column
written by `save_photo`, which stores only comma-joined decimal ids, and
the theorems below assert behaviour on other columns only through parse
failure or through pure-digit tokens, where this model and `int` agree. -/
def charsToNat? (cs : List Char) : Option Nat :=
  if cs.isEmpty then none
  else if cs.all isDigitChar then some (charsToNat cs) else none

/-- Run `int` over every token of a split people column, failing - as the
Python loop does at its first `ValueError` - if any token is malformed. -/
def intTokens? : List (List Char) → Option (List Nat)
  | [] => some []
  | t :: ts =>
    match charsToNat? t, intTokens? ts with
    | some n, some ns => some (n :: ns)
    | _, _ => none

/-- Join character lists with a separator character, as Python's
`','.join(...)` does in `save_photo` (app.py lines 85-86). -/
def joinChar (c : Char) : List (List Char) → List Char
  | [] => []
  | x :: xs =>
    match xs with
    | [] => x
    | _ :: _ => x ++ c :: joinChar c xs

/-- Split a character list at every occurrence of the separator, as Python's
`str.split(',')` does in the timeline rendering (app.py lines 234, 239). -/
def splitOnChar (c : Char) : List Char → List (List Char)
  | [] => [[]]
  | d :: t =>
    match splitOnChar c t with
    | [] => [[]]
    | a :: as => if d = c then [] :: a :: as else (d :: a) :: as

/-- One row of the `users` table (app.py lines 18-26). -/
structure User where
  id : Nat
  email : String
  password : String
  role : String
deriving DecidableEq

/-- One row of the `photos` table (app.py lines 28-42): `people` and `tags`
are the comma-separated `TEXT` columns, `created_at` the system-assigned
creation timestamp (modelled as a strictly increasing insertion counter). -/
structure Photo where
  id : Nat
  title : String
  description : String
  date : String
  location : String
  people : String
  tags : String
  uploader_id : Nat
  image_data : String
  created_at : Nat
deriving DecidableEq

/-- The state of the SQLite file `tanielu_family_story.db`: both tables in
rowid (insertion) order plus the AUTOINCREMENT counters and the clock that
stamps `created_at`. -/
structure DB where
  users : List User
  photos : List Photo
  nextUserId : Nat
  nextPhotoId : Nat
  clock : Nat
deriving DecidableEq

/-- A fresh database (after `init_db` but ignoring the seeded demo accounts,
which no claim depends on). -/
def dbEmpty : DB :=
  ⟨[], [], 1, 1, 1⟩

/-- Embedding of `authenticate` (app.py lines 65-72): hash the password and
return `(id, role)` of the first row matching both email and digest
(`fetchone`), or `none`. -/
def authenticate (hash : String → String) (db : DB) (email pw : String) :
    Option (Nat × String) :=
  (db.users.find? (fun u => u.email == email && u.password == hash pw)).map
    (fun u => (u.id, u.role))

/-- Failure modes of the Sign Up handler (app.py lines 169-182): the caught
`sqlite3.IntegrityError` shown as "Email already exists", and the
"Fill all fields" branch. -/
inductive SignUpError
  | duplicateEmail
  | missingFields
deriving DecidableEq

/-- Embedding of the Sign Up handler (app.py lines 169-182): reject empty
fields, hash the password, insert; the UNIQUE constraint on `email` makes
the insert fail (caught, store untouched) when the email already exists. -/
def signUp (hash : String → String) (db : DB) (email pw role : String) :
    Option SignUpError × DB :=
  if email == "" || pw == "" || role == "" then (some .missingFields, db)
  else if db.users.any (fun u => u.email == email) then (some .duplicateEmail, db)
  else (none, ⟨db.users ++ [⟨db.nextUserId, email, hash pw, role⟩],
      db.photos, db.nextUserId + 1, db.nextPhotoId, db.clock⟩)

/-- The `people` column text stored by `save_photo`
(`','.join(map(str, people))`, app.py line 85). -/
def people_str_of (people : List Nat) : String :=
  ⟨joinChar ',' (people.map natToChars)⟩

/-- The `tags` column text stored by `save_photo`
(`','.join(tags)`, app.py line 86). -/
def tags_str_of (tags : List String) : String :=
  ⟨joinChar ',' (tags.map String.data)⟩

/-- Embedding of `save_photo` (app.py lines 82-92): serialize `people` and
`tags`, insert the new row (fresh AUTOINCREMENT id, current timestamp).
The Python function has no `return` statement, so its value is `None`,
modelled by the `Option Nat` component being `none`. -/
def save_photo (db : DB) (title desc date loc : String) (people : List Nat)
    (tags : List String) (uploader_id : Nat) (image_data : String) :
    DB × Option Nat :=
  let row : Photo := ⟨db.nextPhotoId, title, desc, date, loc,
    people_str_of people, tags_str_of tags, uploader_id, image_data, db.clock⟩
  (⟨db.users, db.photos ++ [row], db.nextUserId, db.nextPhotoId + 1,
    db.clock + 1⟩, none)

/-- The `ORDER BY date DESC, created_at DESC` ordering of app.py lines
97 and 109: `a` may precede `b` iff `a` has the later date, or the same
date and the later-or-equal creation timestamp. -/
def photoOrd (a b : Photo) : Prop :=
  dataLt b.date.data a.date.data = true ∨
    (a.date = b.date ∧ b.created_at ≤ a.created_at)

instance : DecidableRel photoOrd := fun a b => by
  unfold photoOrd
  infer_instance

/-- Embedding of `get_all_photos` (app.py lines 94-100):
`SELECT * FROM photos ORDER BY date DESC, created_at DESC`. -/
def get_all_photos (db : DB) : List Photo :=
  List.insertionSort photoOrd db.photos

/-- Does `m` accept some suffix of the list? This is the search that a `%`
in a `LIKE` pattern performs over the rest of the text. -/
def suffAny (m : List Nat → Bool) : List Nat → Bool
  | [] => m []
  | c :: t => m (c :: t) || suffAny m t

/-- SQLite `LIKE` pattern matching over (lowercased) code-point lists:
37 (`%`) matches any sequence, 95 (`_`) any single character, anything
else itself. -/
def likeMatch : List Nat → List Nat → Bool
  | [], s => s.isEmpty
  | p :: ps, s =>
    if p = 37 then suffAny (fun t => likeMatch ps t) s
    else
      match s with
      | [] => false
      | c :: t => (p == 95 || p == c) && likeMatch ps t

/-- One `column LIKE ?` test of app.py line 108, with the parameter
`f"%{query}%"` built on line 105; `LIKE` is ASCII-case-insensitive. -/
def sqlLike (query field : String) : Bool :=
  likeMatch (lowerStr ("%" ++ query ++ "%")) (lowerStr field)

/-- Embedding of `search_photos` (app.py lines 102-113): keep the rows where
the query (as a `LIKE` pattern) matches title, description, location, tags
or people, ordered as in `get_all_photos`. -/
def search_photos (db : DB) (query : String) : List Photo :=
  List.insertionSort photoOrd
    (db.photos.filter (fun p =>
      sqlLike query p.title || sqlLike query p.description ||
      sqlLike query p.location || sqlLike query p.tags ||
      sqlLike query p.people))

/-- Embedding of `get_user_by_id` (app.py lines 115-121): `(email, role)` of
the first row with the given id, or `none`. -/
def get_user_by_id (db : DB) (user_id : Nat) : Option (String × String) :=
  (db.users.find? (fun u => u.id == user_id)).map (fun u => (u.email, u.role))

/-- Parse of the stored `people` column in the timeline loop (app.py lines
233-236): guarded by `if people_str:`, then `split(',')` and `int(pid)`
on every token; `none` models the `ValueError` a malformed token raises. -/
def parsePeopleIds? (s : String) : Option (List Nat) :=
  if s = "" then some [] else intTokens? (splitOnChar ',' s.data)

/-- Parse of the stored `tags` column in the timeline loop (app.py line
239): `tags_str.split(',') if tags_str else []`. -/
def parseTags (s : String) : List String :=
  if s = "" then [] else (splitOnChar ',' s.data).map String.mk

/-- The people-resolution loop of the timeline (app.py lines 232-238):
look each id up and keep the emails of those that resolve, silently
dropping ids with no matching user. -/
def resolvePeople (db : DB) (ids : List Nat) : List String :=
  ids.filterMap (fun i => (get_user_by_id db i).map Prod.fst)

/-- Python exceptions that `app.py` can let escape. -/
inductive PyError
  | unidentifiedImageError
  | typeErrorNoneSubscript
  | valueErrorInvalidLiteral
  | osErrorCannotWriteJpeg
deriving DecidableEq

/-- What one timeline entry displays (app.py lines 240-247). -/
structure RenderedEntry where
  title : String
  date : String
  description : String
  location : String
  people_emails : List String
  tags : List String
  uploader_email : String
  uploader_role : String
deriving DecidableEq

/-- Embedding of one iteration of the timeline rendering loop (app.py lines
229-247): the uploader lookup itself cannot fail (line 231), then the
people loop runs `int(pid)` on each token - a malformed token raises
`ValueError` there (line 236), before anything is displayed - ids that do
not resolve are dropped (lines 235-238), and finally the uploader lookup
result is indexed unconditionally (`uploader[0]`, line 247), raising
`TypeError` when `get_user_by_id` returned `None`. -/
def renderEntry (db : DB) (p : Photo) : Except PyError RenderedEntry :=
  let uploader := get_user_by_id db p.uploader_id
  match parsePeopleIds? p.people with
  | none => .error .valueErrorInvalidLiteral
  | some ids =>
    let emails := resolvePeople db ids
    let tagList := parseTags p.tags
    match uploader with
    | none => .error .typeErrorNoneSubscript
    | some (em, rl) =>
      .ok ⟨p.title, p.date, p.description, p.location, emails, tagList, em, rl⟩

/-- Did rendering complete without an exception? -/
def isOkB : Except PyError RenderedEntry → Bool
  | .ok _ => true
  | .error _ => false

/-- Replace only the `people` column of a photo row. -/
def setPeople (p : Photo) (s : String) : Photo :=
  ⟨p.id, p.title, p.description, p.date, p.location, s, p.tags,
    p.uploader_id, p.image_data, p.created_at⟩

/-- A decoded image, reduced to its pixel dimensions and its PIL pixel mode
(e.g. "RGB", "RGBA", "P"); pixel contents stay abstract. -/
structure Img where
  w : Nat
  h : Nat
  mode : String
deriving DecidableEq

/-- Pixel modes Pillow can write as JPEG (its JPEG plugin's RAWMODE table);
`img.save(..., format="JPEG")` raises `OSError` ("cannot write mode ... as
JPEG") for any other mode - notably the RGBA and palette (P) modes of PNG
files, which the app's uploader accepts (`type=["jpg","jpeg","png"]`,
app.py line 204) and `Image.open` decodes without error. -/
def jpegWritable (mode : String) : Bool :=
  mode == "1" || mode == "L" || mode == "RGB" || mode == "RGBX" ||
    mode == "CMYK" || mode == "YCbCr"

/-- Size computation of PIL's `Image.thumbnail((800, 800))` as `resize_image`
calls it (app.py line 125), transcribed from Pillow: no change when both
dimensions already fit; otherwise scale the longer side to 800 and pick
floor or ceil of the exact other side, whichever is closer to the true
aspect ratio (floor on ties, clamped to at least 1). Pillow's float
comparisons are realized exactly by cross-multiplication. -/
def thumbnailFit (w h : Nat) : Nat × Nat :=
  if 800 ≥ w ∧ 800 ≥ h then (w, h)
  else if h ≥ w then
    let t := 800 * w
    let fl := t / h
    let ce := (t + h - 1) / h
    let key := fun n => ((800 : Int) * w - n * h).natAbs
    let pick := if key fl ≤ key ce then fl else ce
    (max pick 1, 800)
  else
    let t := 800 * h
    let fl := t / w
    let ce := (t + w - 1) / w
    let keyN := fun n => ((w : Int) * n - 800 * h).natAbs
    let pick := if (if fl = 0 then true else ce * keyN fl ≤ fl * keyN ce) then fl else ce
    (800, max pick 1)

/-- Embedding of `resize_image` (app.py lines 123-128): `Image.open` either
decodes the bytes (the opaque `decode` parameter stands for PIL) or raises
`UnidentifiedImageError`; on success the image is thumbnailed in place to
fit 800x800 (mode unchanged), then `img.save(..., format="JPEG")` either
re-encodes it - the emitted bytes stay abstract, the dimensions and mode
are those of the thumbnailed image - or raises `OSError` when the mode is
not JPEG-writable. -/
def resize_image (decode : List Nat → Option Img) (image : List Nat) :
    Except PyError Img :=
  match decode image with
  | none => .error .unidentifiedImageError
  | some img =>
    if jpegWritable img.mode then
      .ok ⟨(thumbnailFit img.w img.h).1, (thumbnailFit img.w img.h).2, img.mode⟩
    else
      .error .osErrorCannotWriteJpeg

/-- Possible outcomes of the Upload Photo section for one interaction. -/
inductive UploadOutcome
  | noFile (db : DB)
  | uncaughtException (e : PyError)
  | previewOnly (db : DB)
  | saved (db : DB)
deriving DecidableEq

/-- Embedding of the Upload Photo handler (app.py lines 207-216): if a file
is present, `resize_image` runs with no surrounding `try`, so a decoding
failure propagates as an uncaught exception; otherwise the photo is saved
when the Save button was pressed. `enc` stands for `base64_image`. -/
def uploadHandler (decode : List Nat → Option Img) (enc : Img → String)
    (db : DB) (file : Option (List Nat)) (title desc date loc : String)
    (people : List Nat) (tags : List String) (uid : Nat)
    (savePressed : Bool) : UploadOutcome :=
  match file with
  | none => .noFile db
  | some bytes =>
    match resize_image decode bytes with
    | .error e => .uncaughtException e
    | .ok img =>
      if savePressed then
        .saved (save_photo db title desc date loc people tags uid (enc img)).1
      else
        .previewOnly db

/-- Decode that fails on every byte string: the behaviour of `Image.open`
on bytes that are not a supported image (corrupt or non-image input). -/
def decodeNever : List Nat → Option Img := fun _ => none

/-- A concrete stand-in for the opaque password digest in witnesses. -/
def demoHash (s : String) : String :=
  "sha256#" ++ s

/-! ### Decimal serialization round-trip (str / int) -/

theorem valLE_natLE (n : Nat) : valLE (natLE n) = n := by
  induction n using natLE.induct with
  | case1 n h => rw [natLE]; simp [h, valLE]
  | case2 n h ih => rw [natLE]; simp [h, valLE, ih]; omega

theorem natLE_lt_ten (n : Nat) : ∀ d ∈ natLE n, d < 10 := by
  induction n using natLE.induct with
  | case1 n h => rw [natLE]; simp [h]
  | case2 n h ih => rw [natLE]; simp [h]; exact ⟨Nat.mod_lt _ (by omega), ih⟩

theorem natLE_ne_nil (n : Nat) : natLE n ≠ [] := by
  rw [natLE]; split <;> simp

theorem digitChar_toNat {d : Nat} (h : d < 10) : (digitChar d).toNat = 48 + d := by
  interval_cases d <;> decide

theorem digitChar_ne_comma (d : Nat) : digitChar d ≠ ',' := by
  unfold digitChar; split <;> decide

theorem foldl_digitChars (l : List Nat) (hl : ∀ d ∈ l, d < 10) (a : Nat) :
    List.foldl (fun a c => a * 10 + (c.toNat - 48)) a (l.map digitChar) =
      List.foldl (fun a d => a * 10 + d) a l := by
  induction l generalizing a with
  | nil => rfl
  | cons d t ih =>
    have hd : d < 10 := hl d (by simp)
    simp only [List.map_cons, List.foldl_cons]
    rw [digitChar_toNat hd, Nat.add_sub_cancel_left,
      ih (fun x hx => hl x (by simp [hx]))]

theorem foldl_reverse_valLE (l : List Nat) (a : Nat) :
    List.foldl (fun a d => a * 10 + d) a l.reverse = a * 10 ^ l.length + valLE l := by
  induction l generalizing a with
  | nil => simp [valLE]
  | cons d t ih =>
    simp only [List.reverse_cons, List.foldl_append, List.foldl_cons,
      List.foldl_nil, valLE, List.length_cons, ih]
    ring

theorem charsToNat_natToChars (n : Nat) : charsToNat (natToChars n) = n := by
  unfold charsToNat natToChars
  rw [foldl_digitChars _ (fun d hd => natLE_lt_ten n d (by simpa using hd)),
    foldl_reverse_valLE, valLE_natLE]
  simp

theorem natToChars_ne_nil (n : Nat) : natToChars n ≠ [] := by
  unfold natToChars
  simp [natLE_ne_nil n]

theorem comma_not_mem_natToChars (n : Nat) : ',' ∉ natToChars n := by
  unfold natToChars
  simp only [List.mem_map, List.mem_reverse, not_exists, not_and]
  intro d _ h
  exact digitChar_ne_comma d h

/-! ### Comma split / join round-trip -/

theorem splitOnChar_ne_nil (c : Char) (l : List Char) : splitOnChar c l ≠ [] := by
  induction l with
  | nil => simp [splitOnChar]
  | cons d t ih =>
    rw [splitOnChar]
    rcases h : splitOnChar c t with _ | ⟨a, as⟩
    · simp
    · dsimp only
      split <;> simp

theorem splitOnChar_no_sep {c : Char} {l : List Char} (h : c ∉ l) :
    splitOnChar c l = [l] := by
  induction l with
  | nil => rfl
  | cons d t ih =>
    have hd : d ≠ c := fun hdc => h (by simp [hdc])
    have ht : c ∉ t := fun htc => h (by simp [htc])
    rw [splitOnChar, ih ht]
    simp [hd]

theorem splitOnChar_append {c : Char} {p : List Char} (rest : List Char)
    (h : c ∉ p) : splitOnChar c (p ++ c :: rest) = p :: splitOnChar c rest := by
  induction p with
  | nil =>
    simp only [List.nil_append]
    rw [splitOnChar]
    rcases hr : splitOnChar c rest with _ | ⟨a, as⟩
    · exact absurd hr (splitOnChar_ne_nil c rest)
    · simp
  | cons d p' ih =>
    have hd : d ≠ c := fun hdc => h (by simp [hdc])
    have hp : c ∉ p' := fun hpc => h (by simp [hpc])
    simp only [List.cons_append]
    rw [splitOnChar, ih hp]
    simp [hd]

theorem splitOnChar_joinChar {c : Char} {parts : List (List Char)}
    (hne : parts ≠ []) (h : ∀ p ∈ parts, c ∉ p) :
    splitOnChar c (joinChar c parts) = parts := by
  induction parts with
  | nil => exact absurd rfl hne
  | cons x xs ih =>
    cases xs with
    | nil => rw [joinChar]; exact splitOnChar_no_sep (h x (by simp))
    | cons y ys =>
      rw [joinChar]
      rw [splitOnChar_append _ (h x (by simp)),
        ih (by simp) (fun p hp => h p (by simp [hp]))]

theorem joinChar_ne_nil {c : Char} {parts : List (List Char)} (hne : parts ≠ [])
    (h : ∀ p ∈ parts, p ≠ []) : joinChar c parts ≠ [] := by
  cases parts with
  | nil => exact absurd rfl hne
  | cons x xs =>
    cases xs with
    | nil => exact h x (by simp)
    | cons y ys => rw [joinChar]; simp

theorem string_eq_of_data {a b : String} (h : a.data = b.data) : a = b := by
  cases a; cases b; exact congrArg String.mk h

/-! ### Round-trip of the stored people and tags columns -/

theorem isDigitChar_digitChar (d : Nat) : isDigitChar (digitChar d) = true := by
  unfold digitChar
  split <;> decide

theorem natToChars_all_digits (n : Nat) :
    (natToChars n).all isDigitChar = true := by
  rw [List.all_eq_true]
  intro c hc
  rw [natToChars, List.mem_map] at hc
  obtain ⟨d, _, rfl⟩ := hc
  exact isDigitChar_digitChar d

theorem charsToNat?_natToChars (n : Nat) :
    charsToNat? (natToChars n) = some n := by
  have hemp : (natToChars n).isEmpty = false := by
    cases h : natToChars n with
    | nil => exact absurd h (natToChars_ne_nil n)
    | cons a l => rfl
  rw [charsToNat?, hemp, natToChars_all_digits, charsToNat_natToChars]
  rfl

theorem intTokens?_map_natToChars (ids : List Nat) :
    intTokens? (ids.map natToChars) = some ids := by
  induction ids with
  | nil => rfl
  | cons i is ih =>
    rw [List.map_cons, intTokens?, charsToNat?_natToChars, ih]

theorem parsePeopleIds_roundtrip (ids : List Nat) :
    parsePeopleIds? (people_str_of ids) = some ids := by
  cases ids with
  | nil => rfl
  | cons i is =>
    have hne : (people_str_of (i :: is)).data ≠ [] := by
      unfold people_str_of
      exact joinChar_ne_nil (by simp)
        (by rintro p hp
            rw [List.mem_map] at hp
            obtain ⟨n, _, rfl⟩ := hp
            exact natToChars_ne_nil n)
    have hs : people_str_of (i :: is) ≠ "" := fun hempty => hne (by rw [hempty])
    rw [parsePeopleIds?, if_neg hs]
    unfold people_str_of
    rw [splitOnChar_joinChar (by simp)
      (by rintro p hp
          rw [List.mem_map] at hp
          obtain ⟨n, _, rfl⟩ := hp
          exact comma_not_mem_natToChars n)]
    exact intTokens?_map_natToChars (i :: is)

theorem parseTags_roundtrip (tags : List String)
    (h : ∀ t ∈ tags, t ≠ "" ∧ ',' ∉ t.data) :
    parseTags (tags_str_of tags) = tags := by
  cases tags with
  | nil => rfl
  | cons t ts =>
    have hne : (tags_str_of (t :: ts)).data ≠ [] := by
      unfold tags_str_of
      exact joinChar_ne_nil (by simp)
        (by rintro p hp
            rw [List.mem_map] at hp
            obtain ⟨u, hu, rfl⟩ := hp
            intro hud
            exact (h u hu).1 (string_eq_of_data hud))
    have hs : tags_str_of (t :: ts) ≠ "" := fun hempty => hne (by rw [hempty])
    rw [parseTags, if_neg hs]
    unfold tags_str_of
    rw [splitOnChar_joinChar (by simp)
      (by rintro p hp
          rw [List.mem_map] at hp
          obtain ⟨u, hu, rfl⟩ := hp
          exact (h u hu).2)]
    rw [List.map_map]
    refine List.map_congr_left (fun u _ => rfl) |>.trans (List.map_id _)

/-! ### The `ORDER BY date DESC, created_at DESC` ordering -/

theorem char_eq_of_toNat_eq {a b : Char} (h : a.toNat = b.toNat) : a = b := by
  have ha := Char.ofNat_toNat a
  rw [h, Char.ofNat_toNat] at ha
  exact ha.symm

theorem dataLt_trichotomy (a b : List Char) :
    dataLt a b = true ∨ a = b ∨ dataLt b a = true := by
  induction a generalizing b with
  | nil =>
    cases b with
    | nil => exact Or.inr (Or.inl rfl)
    | cons y ys => exact Or.inl (by rw [dataLt])
  | cons x xs ih =>
    cases b with
    | nil => exact Or.inr (Or.inr (by rw [dataLt]))
    | cons y ys =>
      rcases Nat.lt_trichotomy x.toNat y.toNat with hlt | heq | hgt
      · exact Or.inl (by rw [dataLt]; simp [hlt])
      · have hxy : x = y := char_eq_of_toNat_eq heq
        subst hxy
        rcases ih ys with h1 | h2 | h3
        · exact Or.inl (by rw [dataLt]; simp [h1])
        · exact Or.inr (Or.inl (by rw [h2]))
        · exact Or.inr (Or.inr (by rw [dataLt]; simp [h3]))
      · exact Or.inr (Or.inr (by rw [dataLt]; simp [hgt]))

theorem dataLt_trans {a b c : List Char} (hab : dataLt a b = true)
    (hbc : dataLt b c = true) : dataLt a c = true := by
  induction a generalizing b c with
  | nil =>
    cases c with
    | nil =>
      cases b with
      | nil => exact hab
      | cons y ys => rw [dataLt] at hbc; exact absurd hbc (by simp)
    | cons z zs => rw [dataLt]
  | cons x xs ih =>
    cases b with
    | nil => rw [dataLt] at hab; exact absurd hab (by simp)
    | cons y ys =>
      cases c with
      | nil => rw [dataLt] at hbc; exact absurd hbc (by simp)
      | cons z zs =>
        rw [dataLt] at hab hbc ⊢
        simp only [Bool.or_eq_true, Bool.and_eq_true, decide_eq_true_eq,
          beq_iff_eq] at hab hbc ⊢
        rcases hab with hab | ⟨hab1, hab2⟩ <;> rcases hbc with hbc | ⟨hbc1, hbc2⟩
        · exact Or.inl (Nat.lt_trans hab hbc)
        · subst hbc1; exact Or.inl hab
        · subst hab1; exact Or.inl hbc
        · subst hab1; exact Or.inr ⟨hbc1, ih hab2 hbc2⟩

instance : IsTrans Photo photoOrd := by
  constructor
  intro a b c hab hbc
  rcases hab with hab | ⟨hab1, hab2⟩ <;> rcases hbc with hbc | ⟨hbc1, hbc2⟩
  · exact Or.inl (dataLt_trans hbc hab)
  · exact Or.inl (by rw [hbc1] at hab; exact hab)
  · exact Or.inl (by rw [hab1]; exact hbc)
  · exact Or.inr ⟨hab1.trans hbc1, Nat.le_trans hbc2 hab2⟩

instance : IsTotal Photo photoOrd := by
  constructor
  intro a b
  rcases dataLt_trichotomy a.date.data b.date.data with h1 | h2 | h3
  · exact Or.inr (Or.inl h1)
  · have hd : a.date = b.date := string_eq_of_data h2
    rcases Nat.le_total a.created_at b.created_at with hc | hc
    · exact Or.inr (Or.inr ⟨hd.symm, hc⟩)
    · exact Or.inl (Or.inr ⟨hd, hc⟩)
  · exact Or.inl (Or.inl h3)

/-! ### SQLite `LIKE` versus plain substring matching -/

/-- Plain prefix test on code-point lists. -/
def prefB : List Nat → List Nat → Bool
  | [], _ => true
  | _ :: _, [] => false
  | a :: q, b :: s => a == b && prefB q s

/-- Plain substring (contiguous) test on code-point lists. -/
def subB (q : List Nat) : List Nat → Bool
  | [] => prefB q []
  | c :: t => prefB q (c :: t) || subB q t

/-- The spec's wording of the Search filter: the query is a substring
(here after ASCII lowercasing, since the implementation's `LIKE` is
case-insensitive) of the field. -/
def substrCI (q s : String) : Bool :=
  subB (lowerStr q) (lowerStr s)

/-- The spec's wording of `Search`'s matched-field semantics: query is a
substring of title OR description OR location OR serialized tags OR
serialized people-ids. -/
def specMatch (q : String) (p : Photo) : Bool :=
  substrCI q p.title || substrCI q p.description || substrCI q p.location ||
    substrCI q p.tags || substrCI q p.people

theorem likeMatch_pct_all : ∀ s : List Nat, likeMatch [37] s = true := by
  intro s
  induction s with
  | nil => rfl
  | cons c t ih =>
    have ih' : suffAny (fun u => likeMatch [] u) t = true := ih
    show suffAny (fun u => likeMatch [] u) (c :: t) = true
    rw [suffAny, ih']
    simp

theorem likeMatch_lit (q : List Nat) (hq : ∀ a ∈ q, a ≠ 37 ∧ a ≠ 95) :
    ∀ s : List Nat, likeMatch (q ++ [37]) s = prefB q s := by
  induction q with
  | nil =>
    intro s
    rw [List.nil_append, likeMatch_pct_all s, prefB]
  | cons a q' ih =>
    intro s
    have ha := hq a (by simp)
    have hb : (a == 95) = false := by simp [ha.2]
    cases s with
    | nil => simp [List.cons_append, likeMatch, prefB, ha.1]
    | cons c t =>
      simp [List.cons_append, likeMatch, prefB, ha.1, hb,
        ih (fun x hx => hq x (by simp [hx])) t]

theorem likeMatch_wrapped (q : List Nat) (hq : ∀ a ∈ q, a ≠ 37 ∧ a ≠ 95) :
    ∀ s : List Nat, likeMatch (37 :: (q ++ [37])) s = subB q s := by
  intro s
  induction s with
  | nil =>
    show suffAny (fun u => likeMatch (q ++ [37]) u) [] = subB q []
    rw [suffAny, subB, likeMatch_lit q hq]
  | cons c t ih =>
    have ih' : suffAny (fun u => likeMatch (q ++ [37]) u) t = subB q t := ih
    show suffAny (fun u => likeMatch (q ++ [37]) u) (c :: t) = subB q (c :: t)
    rw [suffAny, ih', subB, likeMatch_lit q hq]

theorem lowerN_ne_meta {c : Char} (h37 : c ≠ '%') (h95 : c ≠ '_') :
    lowerN c ≠ 37 ∧ lowerN c ≠ 95 := by
  unfold lowerN
  split
  · constructor <;> omega
  · constructor
    · intro hc
      exact h37 (char_eq_of_toNat_eq (by rw [hc]; rfl))
    · intro hc
      exact h95 (char_eq_of_toNat_eq (by rw [hc]; rfl))

theorem sqlLike_eq_substr {q : String} (h37 : '%' ∉ q.data) (h95 : '_' ∉ q.data)
    (f : String) : sqlLike q f = substrCI q f := by
  have hdata : ("%" ++ q ++ "%").data = '%' :: q.data ++ ['%'] := by
    simp [String.data_append]
  have hlow : lowerStr ("%" ++ q ++ "%") = 37 :: lowerStr q ++ [37] := by
    unfold lowerStr
    rw [hdata]
    simp [lowerN]
  have hq : ∀ a ∈ lowerStr q, a ≠ 37 ∧ a ≠ 95 := by
    intro a ha
    rw [lowerStr, List.mem_map] at ha
    obtain ⟨c, hc, rfl⟩ := ha
    exact lowerN_ne_meta (fun hc' => h37 (hc' ▸ hc)) (fun hc' => h95 (hc' ▸ hc))
  rw [sqlLike, hlow]
  exact (likeMatch_wrapped (lowerStr q) hq (lowerStr f)).trans rfl

/-! ### Bounds for the thumbnail size computation -/

theorem nat_div_le_800 {a b : Nat} (hb : 0 < b) (h : a < 801 * b) : a / b ≤ 800 := by
  have h2 := (Nat.div_lt_iff_lt_mul hb).mpr h
  omega

theorem ite_le_of_le {c : Prop} [Decidable c] {a b n : Nat} (ha : a ≤ n)
    (hb : b ≤ n) : (if c then a else b) ≤ n := by
  split <;> assumption

theorem thumbnailFit_le {w h : Nat} (hw : 0 < w) (hh : 0 < h) :
    (thumbnailFit w h).1 ≤ 800 ∧ (thumbnailFit w h).2 ≤ 800 := by
  rw [thumbnailFit]
  split
  · rename_i h1
    exact ⟨h1.1, h1.2⟩
  · rename_i h1
    split
    · rename_i h2
      have hfl : 800 * w / h ≤ 800 := nat_div_le_800 hh (by omega)
      have hce : (800 * w + h - 1) / h ≤ 800 := nat_div_le_800 hh (by omega)
      exact ⟨Nat.max_le.mpr ⟨ite_le_of_le hfl hce, by omega⟩, le_refl 800⟩
    · rename_i h2
      have hwgt : h < w := by omega
      have hfl : 800 * h / w ≤ 800 := nat_div_le_800 hw (by omega)
      have hce : (800 * h + w - 1) / w ≤ 800 := nat_div_le_800 hw (by omega)
      exact ⟨le_refl 800, Nat.max_le.mpr ⟨ite_le_of_le hfl hce, by omega⟩⟩

theorem thumbnailFit_noUpsample {w h : Nat} (hw : w ≤ 800) (hh : h ≤ 800) :
    thumbnailFit w h = (w, h) := by
  rw [thumbnailFit, if_pos ⟨hw, hh⟩]

/-! ### `authenticate` against the `users` table -/

theorem find_matching_unique (hash : String → String) (email pw : String)
    (l : List User) (hu : l.Pairwise (fun x y => x.email ≠ y.email)) (u : User)
    (hmem : u ∈ l) (he : u.email = email) (hp : u.password = hash pw) :
    l.find? (fun v => v.email == email && v.password == hash pw) = some u := by
  induction l with
  | nil => cases hmem
  | cons v vs ih =>
    rcases List.mem_cons.mp hmem with rfl | hmem'
    · rw [List.find?_cons_of_pos]
      simp [he, hp]
    · have hne : v.email ≠ u.email :=
        (List.pairwise_cons.mp hu).1 u hmem'
      rw [List.find?_cons_of_neg, ih (List.pairwise_cons.mp hu).2 hmem']
      simp only [Bool.and_eq_true, beq_iff_eq, not_and]
      intro hv
      exact absurd (hv.trans he.symm) hne

/-! ### Concrete databases used by witnesses and counterexamples -/

/-- The spec's ordering scenario: photos dated 2020-01-01, 2021-06-15,
2021-06-15, saved in that order. -/
def demo4 : DB :=
  ((save_photo ((save_photo ((save_photo dbEmpty
    "p1" "" "2020-01-01" "" [] [] 1 "i1").1)
    "p2" "" "2021-06-15" "" [] [] 1 "i2").1)
    "p3" "" "2021-06-15" "" [] [] 1 "i3").1)

/-- One seeded user, for authentication scenarios. -/
def c2db : DB :=
  ⟨[⟨1, "john@family.com", demoHash "demo123", "Dad"⟩], [], 2, 1, 1⟩

/-- Database holding one photo saved with the comma-containing tag "a,b". -/
def c1db : DB :=
  (save_photo dbEmpty "t" "d" "2020-01-01" "loc" [] ["a,b"] 1 "img").1

/-- Database holding one photo titled "ab" and otherwise blank fields. -/
def c5db : DB :=
  (save_photo dbEmpty "ab" "" "2020-01-01" "" [] [] 1 "i").1

/-- The row that `save_photo` stores into `c5db`. -/
def c5photo : Photo :=
  ⟨1, "ab", "", "2020-01-01", "", "", "", 1, "i", 1⟩

/-- Two photos of which exactly one has "Beach" in its location. -/
def beachDb : DB :=
  (save_photo ((save_photo dbEmpty
    "Hike" "forest walk" "2021-01-02" "mountains" [] [] 1 "i1").1)
    "Swim" "sunny day" "2021-03-04" "Piha Beach" [] [] 1 "i2").1

/-- One registered user, for people-resolution scenarios. -/
def c6db : DB :=
  ⟨[⟨1, "mary@family.com", "h", "Mum"⟩], [], 2, 1, 1⟩

/-- Base64 encoding stand-in (its value is irrelevant to every claim). -/
def encStub : Img → String := fun _ => "enc"

/-- A photo row whose `uploader_id` (7) matches no user of `dbEmpty`. -/
def c10photo : Photo :=
  ⟨1, "t", "d", "2020-01-01", "l", "", "", 7, "img", 1⟩

/-- A photo row whose `people` column holds the non-numeral token "x". -/
def c10badPhoto : Photo :=
  ⟨2, "t", "d", "2020-01-01", "l", "x", "", 1, "img", 1⟩

/-! ### Claim C1 -/

/-- Claim C1, counterexample: saving a photo whose tag list is the single
tag "a,b" produces a first ListAll in which no record round-trips to the
saved tag set (the stored column reads back as the set containing "a" and
"b"), so the claim fails as stated for tags containing commas. -/
theorem c1_tag_comma_breaks_roundtrip :
    ¬ ∃ r ∈ get_all_photos c1db,
      r.title = "t" ∧ r.description = "d" ∧ r.date = "2020-01-01" ∧
      r.location = "loc" ∧
      (parsePeopleIds? r.people).map (fun l => l.toFinset) =
        some (([] : List Nat).toFinset) ∧
      (parseTags r.tags).toFinset = (["a,b"] : List String).toFinset := by
  decide

/-- Claim C1 (amended): for every photo saved via `save_photo` whose tags
are each nonempty and comma-free, the first subsequent `get_all_photos`
contains a record whose title, description, date and location equal the
saved values and whose stored people and tag columns parse back (by the
rendering code's own comma-split) to exactly the saved sets; people-ids,
being decimal numerals, always round-trip. -/
theorem c1_save_listAll_roundtrip (db : DB) (title desc date loc : String)
    (people : List Nat) (tags : List String) (uid : Nat) (img : String)
    (htags : ∀ t ∈ tags, t ≠ "" ∧ ',' ∉ t.data) :
    ∃ r ∈ get_all_photos (save_photo db title desc date loc people tags uid img).1,
      r.title = title ∧ r.description = desc ∧ r.date = date ∧
      r.location = loc ∧
      (parsePeopleIds? r.people).map (fun l => l.toFinset) =
        some people.toFinset ∧
      (parseTags r.tags).toFinset = tags.toFinset := by
  refine ⟨⟨db.nextPhotoId, title, desc, date, loc, people_str_of people,
    tags_str_of tags, uid, img, db.clock⟩, ?_, rfl, rfl, rfl, rfl, ?_, ?_⟩
  · rw [get_all_photos]
    refine (List.perm_insertionSort photoOrd _).mem_iff.mpr ?_
    simp [save_photo]
  · rw [parsePeopleIds_roundtrip]
    rfl
  · rw [parseTags_roundtrip tags htags]

/-- Claim C1, witness at a concrete save. -/
theorem c1_save_listAll_roundtrip_witness :
    ∃ r ∈ get_all_photos (save_photo dbEmpty "Birthday" "cake" "2021-06-15"
      "Auckland" [2, 3] ["beach", "family"] 1 "img").1,
      r.title = "Birthday" ∧ r.description = "cake" ∧ r.date = "2021-06-15" ∧
      r.location = "Auckland" ∧
      (parsePeopleIds? r.people).map (fun l => l.toFinset) =
        some (([2, 3] : List Nat).toFinset) ∧
      (parseTags r.tags).toFinset = (["beach", "family"] : List String).toFinset :=
  c1_save_listAll_roundtrip dbEmpty "Birthday" "cake" "2021-06-15" "Auckland"
    [2, 3] ["beach", "family"] 1 "img" (by decide)

/-! ### Claim C2 -/

/-- Claim C2: `authenticate` returns a `(UserId, Role)` pair exactly when a
stored user row matches both the email and the digest of the password:
it returns `none` iff no row matches (so wrong password and unknown email
produce the identical observable result `none`); any returned pair comes
from a matching row; and under the store's email-uniqueness invariant the
matching row's own id and role are returned. -/
theorem c2_authenticate_exact (hash : String → String) (db : DB)
    (email pw : String) :
    (authenticate hash db email pw = none ↔
      ∀ u ∈ db.users, ¬(u.email = email ∧ u.password = hash pw)) ∧
    (∀ i r, authenticate hash db email pw = some (i, r) →
      ∃ u ∈ db.users, u.email = email ∧ u.password = hash pw ∧
        u.id = i ∧ u.role = r) ∧
    (db.users.Pairwise (fun x y => x.email ≠ y.email) →
      ∀ u ∈ db.users, u.email = email → u.password = hash pw →
        authenticate hash db email pw = some (u.id, u.role)) := by
  refine ⟨?_, ?_, ?_⟩
  · rw [authenticate, Option.map_eq_none', List.find?_eq_none]
    simp
  · intro i r h
    rw [authenticate, Option.map_eq_some'] at h
    obtain ⟨u, hu, heq⟩ := h
    have hmem := List.mem_of_find?_eq_some hu
    have hpred := List.find?_some hu
    simp only [Bool.and_eq_true, beq_iff_eq] at hpred
    simp only [Prod.mk.injEq] at heq
    exact ⟨u, hmem, hpred.1, hpred.2, heq.1, heq.2⟩
  · intro huniq u hmem he hp
    rw [authenticate,
      find_matching_unique hash email pw db.users huniq u hmem he hp]
    rfl

/-- Claim C2, witness: wrong password and unknown email both yield `none`,
and the matching pair yields the stored id and role. -/
theorem c2_authenticate_exact_witness :
    authenticate demoHash c2db "john@family.com" "wrong" = none ∧
    authenticate demoHash c2db "ghost@family.com" "demo123" = none ∧
    authenticate demoHash c2db "john@family.com" "demo123" = some (1, "Dad") :=
  ⟨(c2_authenticate_exact demoHash c2db "john@family.com" "wrong").1.mpr
      (by decide),
   (c2_authenticate_exact demoHash c2db "ghost@family.com" "demo123").1.mpr
      (by decide),
   (c2_authenticate_exact demoHash c2db "john@family.com" "demo123").2.2
      (by decide) ⟨1, "john@family.com", demoHash "demo123", "Dad"⟩
      (by decide) rfl rfl⟩

/-! ### Claim C3 -/

/-- Claim C3: registering a fresh email (all fields filled) succeeds, and a
second registration of the same email fails with the duplicate-email error
as a recoverable result value, leaving the user store exactly as the first
registration left it. -/
theorem c3_register_duplicate (hash : String → String) (db : DB)
    (email pw role pw2 role2 : String) (he : email ≠ "") (hp : pw ≠ "")
    (hr : role ≠ "") (hp2 : pw2 ≠ "") (hr2 : role2 ≠ "")
    (hfresh : ∀ u ∈ db.users, u.email ≠ email) :
    (signUp hash db email pw role).1 = none ∧
    (signUp hash (signUp hash db email pw role).2 email pw2 role2).1 =
      some SignUpError.duplicateEmail ∧
    (signUp hash (signUp hash db email pw role).2 email pw2 role2).2 =
      (signUp hash db email pw role).2 := by
  have hbe : (email == "") = false := beq_eq_false_iff_ne.mpr he
  have hbp : (pw == "") = false := beq_eq_false_iff_ne.mpr hp
  have hbr : (role == "") = false := beq_eq_false_iff_ne.mpr hr
  have hbp2 : (pw2 == "") = false := beq_eq_false_iff_ne.mpr hp2
  have hbr2 : (role2 == "") = false := beq_eq_false_iff_ne.mpr hr2
  have hany : db.users.any (fun u => u.email == email) = false := by
    rw [List.any_eq_false]
    intro u hu
    simp [hfresh u hu]
  have h1r : (signUp hash db email pw role).1 = none := by
    rw [signUp, if_neg (by simp [hbe, hbp, hbr]), if_neg (by simp [hany])]
  have h1u : ((signUp hash db email pw role).2).users =
      db.users ++ [⟨db.nextUserId, email, hash pw, role⟩] := by
    rw [signUp, if_neg (by simp [hbe, hbp, hbr]), if_neg (by simp [hany])]
  have hX : ((signUp hash db email pw role).2).users.any
      (fun u => u.email == email) = true := by
    rw [h1u]
    simp
  have h2 : signUp hash ((signUp hash db email pw role).2) email pw2 role2 =
      (some SignUpError.duplicateEmail, (signUp hash db email pw role).2) := by
    rw [signUp, if_neg (by simp [hbe, hbp2, hbr2]), if_pos hX]
  exact ⟨h1r, by rw [h2], by rw [h2]⟩

/-- Claim C3, witness at a concrete registration pair. -/
theorem c3_register_duplicate_witness :
    (signUp demoHash dbEmpty "new@family.com" "pw1" "Son").1 = none ∧
    (signUp demoHash (signUp demoHash dbEmpty "new@family.com" "pw1" "Son").2
      "new@family.com" "pw2" "Other").1 = some SignUpError.duplicateEmail ∧
    (signUp demoHash (signUp demoHash dbEmpty "new@family.com" "pw1" "Son").2
      "new@family.com" "pw2" "Other").2 =
      (signUp demoHash dbEmpty "new@family.com" "pw1" "Son").2 :=
  c3_register_duplicate demoHash dbEmpty "new@family.com" "pw1" "Son" "pw2"
    "Other" (by decide) (by decide) (by decide) (by decide) (by decide)
    (by decide)

/-! ### Claim C4 -/

/-- Claim C4: `get_all_photos` and `search_photos` return photos ordered by
date descending with ties broken by creation timestamp descending (the
output is sorted under `photoOrd` and is a permutation of the table), and
on the concrete scenario - photos dated 2020-01-01, 2021-06-15, 2021-06-15
inserted in that order - the two 2021-06-15 photos come first, the
later-inserted one (id 3) before the earlier tie (id 2), and the
2020-01-01 photo last. -/
theorem c4_listing_order :
    (∀ db : DB, (get_all_photos db).Sorted photoOrd ∧
      (get_all_photos db).Perm db.photos ∧
      ∀ q : String, (search_photos db q).Sorted photoOrd) ∧
    (get_all_photos demo4).map (fun p => (p.date, p.id)) =
      [("2021-06-15", 3), ("2021-06-15", 2), ("2020-01-01", 1)] := by
  refine ⟨fun db => ⟨List.sorted_insertionSort photoOrd db.photos,
    List.perm_insertionSort photoOrd db.photos,
    fun q => List.sorted_insertionSort photoOrd _⟩, by decide⟩

/-! ### Claim C5 -/

/-- Claim C5, counterexample: `search_photos` treats the query as a `LIKE`
pattern, so the query "a_" (underscore is a single-character wildcard)
returns the photo titled "ab" even though "a_" is not a substring -
case-sensitively or not - of any of its five searched fields. -/
theorem c5_wildcard_not_substring :
    search_photos c5db "a_" = [c5photo] ∧ specMatch "a_" c5photo = false := by
  decide

/-- Claim C5 (amended): for queries containing no `LIKE` metacharacter
(no `%` and no `_`), `search_photos` returns exactly the photos for which
the query is an ASCII-case-insensitive substring of the title, the
description, the location, the serialized tags, or the serialized
people-ids, in the `get_all_photos` order. -/
theorem c5_search_substring (db : DB) (q : String) (h37 : '%' ∉ q.data)
    (h95 : '_' ∉ q.data) :
    search_photos db q =
      List.insertionSort photoOrd (db.photos.filter (specMatch q)) := by
  rw [search_photos]
  congr 1
  refine List.filter_congr ?_
  intro p _
  simp only [sqlLike_eq_substr h37 h95, specMatch]

/-- Claim C5, witness: the spec's own example - searching "beach" over a
database where exactly one photo has "Beach" in its location returns
exactly that photo. -/
theorem c5_search_substring_witness :
    search_photos beachDb "beach" =
      List.insertionSort photoOrd (beachDb.photos.filter (specMatch "beach")) ∧
    (search_photos beachDb "beach").map (fun p => p.title) = ["Swim"] :=
  ⟨c5_search_substring beachDb "beach" (by decide) (by decide), by decide⟩

/-! ### Claim C6 -/

/-- Claim C6: `get_user_by_id` on an id that matches no stored user returns
`none` (an ordinary value, not a failure), and the timeline's people
resolution silently drops such an id: the rendered email list with the
dangling id present equals the list with it absent. -/
theorem c6_missing_user_dropped (db : DB) (i : Nat) (xs ys : List Nat)
    (h : ∀ u ∈ db.users, u.id ≠ i) :
    get_user_by_id db i = none ∧
    resolvePeople db (xs ++ i :: ys) = resolvePeople db (xs ++ ys) := by
  have hnone : get_user_by_id db i = none := by
    rw [get_user_by_id, Option.map_eq_none', List.find?_eq_none]
    intro u hu
    simp [h u hu]
  refine ⟨hnone, ?_⟩
  simp [resolvePeople, List.filterMap_append, List.filterMap_cons, hnone]

/-- Claim C6, witness: id 99 resolves to nothing and is dropped from the
people list. -/
theorem c6_missing_user_dropped_witness :
    get_user_by_id c6db 99 = none ∧
    resolvePeople c6db ([1] ++ 99 :: []) = resolvePeople c6db ([1] ++ []) :=
  c6_missing_user_dropped c6db 99 [1] [] (by decide)

/-! ### Claim C7 -/

/-- Claim C7: the thumbnail computation never upsamples (inputs already
within 800x800 are returned unchanged), always yields dimensions of at
most 800 on positive inputs, `resize_image` applies exactly this
computation to a decoded image whose mode the JPEG re-encode can write
(and raises `OSError` on any other decoded mode), and on the spec's
concrete cases a 2000x1000 input becomes 800x400 (aspect ratio preserved
exactly) while a 400x300 input is unchanged. -/
theorem c7_normalize_dims :
    (∀ w h : Nat, w ≤ 800 → h ≤ 800 → thumbnailFit w h = (w, h)) ∧
    (∀ w h : Nat, 0 < w → 0 < h →
      (thumbnailFit w h).1 ≤ 800 ∧ (thumbnailFit w h).2 ≤ 800) ∧
    (∀ (decode : List Nat → Option Img) (bytes : List Nat) (img : Img),
      decode bytes = some img → jpegWritable img.mode = true →
      resize_image decode bytes =
        .ok ⟨(thumbnailFit img.w img.h).1, (thumbnailFit img.w img.h).2,
          img.mode⟩) ∧
    (∀ (decode : List Nat → Option Img) (bytes : List Nat) (img : Img),
      decode bytes = some img → jpegWritable img.mode = false →
      resize_image decode bytes = .error PyError.osErrorCannotWriteJpeg) ∧
    thumbnailFit 2000 1000 = (800, 400) ∧ thumbnailFit 400 300 = (400, 300) := by
  refine ⟨fun w h hw hh => thumbnailFit_noUpsample hw hh,
    fun w h hw hh => thumbnailFit_le hw hh,
    fun decode bytes img hd hm => by
      rw [resize_image, hd]
      simp [hm],
    fun decode bytes img hd hm => by
      rw [resize_image, hd]
      simp [hm],
    by decide, by decide⟩

/-- Claim C7, witness at the spec's concrete images, plus the JPEG
re-encode failure on an RGBA decode. -/
theorem c7_normalize_dims_witness :
    thumbnailFit 2000 1000 = (800, 400) ∧ thumbnailFit 400 300 = (400, 300) ∧
    (thumbnailFit 2000 1000).1 ≤ 800 ∧ (thumbnailFit 2000 1000).2 ≤ 800 ∧
    resize_image (fun _ => some ⟨2000, 1000, "RGB"⟩) [] =
      .ok ⟨800, 400, "RGB"⟩ ∧
    resize_image (fun _ => some ⟨100, 100, "RGBA"⟩) [] =
      .error PyError.osErrorCannotWriteJpeg :=
  ⟨c7_normalize_dims.2.2.2.2.1, c7_normalize_dims.2.2.2.2.2,
   (c7_normalize_dims.2.1 2000 1000 (by decide) (by decide)).1,
   (c7_normalize_dims.2.1 2000 1000 (by decide) (by decide)).2,
   by rw [c7_normalize_dims.2.2.1 (fun _ => some ⟨2000, 1000, "RGB"⟩) []
        ⟨2000, 1000, "RGB"⟩ rfl (by decide)]
      dsimp only
      rw [c7_normalize_dims.2.2.2.2.1],
   c7_normalize_dims.2.2.2.1 (fun _ => some ⟨100, 100, "RGBA"⟩) []
     ⟨100, 100, "RGBA"⟩ rfl (by decide)⟩

/-! ### Claim C8 -/

/-- Claim C8 is wrong about the code as written (a code bug against the
spec's stated intent): when decoding fails, `resize_image` raises and the
Upload Photo handler has no `try`, so the failure propagates as an
uncaught exception rather than surfacing as a recoverable rejected-upload
value: on undecodable bytes the handler's outcome is the propagated
`UnidentifiedImageError`. -/
theorem c8_upload_uncaught_exception :
    resize_image decodeNever [1, 2, 3] = .error PyError.unidentifiedImageError ∧
    uploadHandler decodeNever encStub dbEmpty (some [1, 2, 3]) "t" "d"
      "2020-01-01" "l" [] [] 1 true =
      .uncaughtException PyError.unidentifiedImageError :=
  ⟨rfl, rfl⟩

/-! ### Claim C9 -/

/-- Claim C9, counterexample: saving a photo into the empty database
persists a record whose PhotoId is 1, yet `save_photo`'s return value is
not `some 1` - the Python function has no `return` statement, so the
caller receives `None`, never the new PhotoId. -/
theorem c9_save_returns_none_cx :
    (save_photo dbEmpty "t" "d" "2020-01-01" "l" [] [] 1 "img").1.photos.map
      (fun p => p.id) = [1] ∧
    (save_photo dbEmpty "t" "d" "2020-01-01" "l" [] [] 1 "img").2 ≠ some 1 := by
  decide

/-- Claim C9 (amended): `save_photo` persists a new record carrying the
fresh system-assigned PhotoId (the AUTOINCREMENT counter) and the current
creation timestamp, but returns no value (`None`); the PhotoId is never
handed back to the caller. -/
theorem c9_save_persists_returns_none (db : DB) (title desc date loc : String)
    (people : List Nat) (tags : List String) (uid : Nat) (img : String) :
    (save_photo db title desc date loc people tags uid img).2 = none ∧
    (save_photo db title desc date loc people tags uid img).1.photos =
      db.photos ++ [⟨db.nextPhotoId, title, desc, date, loc,
        people_str_of people, tags_str_of tags, uid, img, db.clock⟩] :=
  ⟨rfl, rfl⟩

/-! ### Claim C10 -/

/-- Claim C10: a timeline entry renders successfully only if the photo's
`uploader_id` resolves to an existing user; when it does not, rendering
always fails, and - whenever the people column parses (as every column
written by `save_photo` does) - it fails precisely with the `TypeError`
of the unconditional `uploader[0]` subscript. On parseable people columns
the outcome is independent of the people column: its dangling ids are
silently dropped. A people column whose token is not a decimal numeral
(possible only through external modification of the stored data) instead
raises `ValueError` inside the people loop, before the uploader display. -/
theorem c10_uploader_unconditional (db : DB) (p : Photo) :
    (isOkB (renderEntry db p) = true →
      (get_user_by_id db p.uploader_id).isSome = true) ∧
    (get_user_by_id db p.uploader_id = none →
      ∃ e, renderEntry db p = Except.error e) ∧
    (parsePeopleIds? p.people ≠ none →
      get_user_by_id db p.uploader_id = none →
      renderEntry db p = Except.error PyError.typeErrorNoneSubscript) ∧
    (∀ s : String, parsePeopleIds? s ≠ none → parsePeopleIds? p.people ≠ none →
      isOkB (renderEntry db (setPeople p s)) = isOkB (renderEntry db p)) ∧
    (parsePeopleIds? p.people = none →
      renderEntry db p = Except.error PyError.valueErrorInvalidLiteral) := by
  have herr : get_user_by_id db p.uploader_id = none →
      renderEntry db p = Except.error PyError.valueErrorInvalidLiteral ∨
      renderEntry db p = Except.error PyError.typeErrorNoneSubscript := by
    intro hu
    rcases hp : parsePeopleIds? p.people with _ | ids
    · exact Or.inl (by rw [renderEntry, hp])
    · exact Or.inr (by rw [renderEntry, hp, hu])
  refine ⟨?_, ?_, ?_, ?_, ?_⟩
  · intro hok
    rcases hu : get_user_by_id db p.uploader_id with _ | pr
    · rcases herr hu with h | h <;> rw [h] at hok <;>
        exact absurd hok (by simp [isOkB])
    · rfl
  · intro hu
    rcases herr hu with h | h
    · exact ⟨PyError.valueErrorInvalidLiteral, h⟩
    · exact ⟨PyError.typeErrorNoneSubscript, h⟩
  · intro hp hu
    rcases hps : parsePeopleIds? p.people with _ | ids
    · exact absurd hps hp
    · rw [renderEntry, hps, hu]
  · intro s hs hp
    rcases hss : parsePeopleIds? s with _ | ids2
    · exact absurd hss hs
    rcases hps : parsePeopleIds? p.people with _ | ids
    · exact absurd hps hp
    rcases hu : get_user_by_id db p.uploader_id with _ | ⟨em, rl⟩ <;>
      simp [renderEntry, setPeople, hss, hps, hu, isOkB]
  · intro hp
    rw [renderEntry, hp]

/-- Claim C10, witness: a photo whose uploader id 7 matches no user makes
rendering raise the `TypeError`, while a people column with a non-numeral
token raises the people loop's `ValueError`. -/
theorem c10_uploader_unconditional_witness :
    renderEntry dbEmpty c10photo = Except.error PyError.typeErrorNoneSubscript ∧
    renderEntry dbEmpty c10badPhoto =
      Except.error PyError.valueErrorInvalidLiteral :=
  ⟨(c10_uploader_unconditional dbEmpty c10photo).2.2.1 (by decide) (by decide),
   (c10_uploader_unconditional dbEmpty c10badPhoto).2.2.2.2 (by decide)⟩
